import Mathlib

/-!
Shallow embedding of the document-acquisition service of Pliegos-publicos
(`src/unnamed/part_000`, a TypeScript module): text normalisation, filename
classification, link relevance filtering, the URL downloader, the batch link
prober and the web-page scraper, together with the post-response handling of
the metadata extractor.

JavaScript strings are modelled as Lean `String`s; `String.prototype.includes`,
`startsWith` and `endsWith` are re-implemented over the character lists so that
all predicates are executable and decidable.
-/

namespace Pliegos

/-- True when `needle` occurs as a contiguous run inside the list (JS `includes`). -/
def infixOf (needle : List Char) : List Char → Bool
  | [] => needle.isPrefixOf ([] : List Char)
  | c :: rest => needle.isPrefixOf (c :: rest) || infixOf needle rest

/-- JS `s.includes(sub)`. -/
def jsIncludes (s sub : String) : Bool := infixOf sub.data s.data

/-- JS `s.startsWith(p)`. -/
def jsStartsWith (s p : String) : Bool := p.data.isPrefixOf s.data

/-- JS `s.endsWith(p)`. -/
def jsEndsWith (s p : String) : Bool := p.data.isSuffixOf s.data

/-- Combining acute accent U+0301. -/
def combAcute : Char := Char.ofNat 0x301

/-- Combining tilde U+0303. -/
def combTilde : Char := Char.ofNat 0x303

/-- Combining diaeresis U+0308. -/
def combDiaeresis : Char := Char.ofNat 0x308

/-- Unicode lowercasing (JS `toLowerCase`), modelled on the character set the
the Spanish keyword matching of the program uses: ASCII letters plus the accented
letters of the Spanish alphabet; every other character is a fixed point. -/
def lowerChar (c : Char) : Char :=
  if c = 'Á' then 'á'
  else if c = 'É' then 'é'
  else if c = 'Í' then 'í'
  else if c = 'Ó' then 'ó'
  else if c = 'Ú' then 'ú'
  else if c = 'Ü' then 'ü'
  else if c = 'Ñ' then 'ñ'
  else c.toLower

/-- Unicode canonical decomposition (NFD), modelled on the lowercase Spanish
accented letters (the only precomposed characters the inputs of the program use);
every other character decomposes to itself. -/
def nfdChar (c : Char) : List Char :=
  if c = 'á' then ['a', combAcute]
  else if c = 'é' then ['e', combAcute]
  else if c = 'í' then ['i', combAcute]
  else if c = 'ó' then ['o', combAcute]
  else if c = 'ú' then ['u', combAcute]
  else if c = 'ü' then ['u', combDiaeresis]
  else if c = 'ñ' then ['n', combTilde]
  else [c]

/-- The combining-diacritical-marks block U+0300–U+036F, the range stripped by
the `replace(/[̀-ͯ]/g, "")`. -/
def isCombiningMark (c : Char) : Bool := 0x300 ≤ c.toNat && c.toNat ≤ 0x36f

/-- One character sent through lowercase, NFD and mark stripping. -/
def normChar (c : Char) : List Char :=
  (nfdChar (lowerChar c)).filter (fun d => !isCombiningMark d)

/-- JS `toLowerCase` over a whole string. -/
def jsToLower (s : String) : String := String.mk (s.data.map lowerChar)

/-- Embeds `normalizeText` (part_000, lines 42–44):
`text.toLowerCase().normalize("NFD").replace(/[̀-ͯ]/g, "")`. -/
def normalizeText (text : String) : String :=
  String.mk (text.data.flatMap normChar)

/-- Classification outcome of `classifyFile`. -/
inductive Cls where
  | ADMIN
  | TECH
  | UNKNOWN
deriving DecidableEq, Repr

/-- A browser `File` object: its name, byte length and MIME type. -/
structure JSFile where
  name : String
  size : Nat
  type : String
deriving DecidableEq, Repr

/-- The admin-keyword test of `classifyFile` (part_000, lines 51–57). -/
def hasAdminKeyword (name : String) : Bool :=
  jsIncludes name "pcap" || jsIncludes name "admin" || jsIncludes name "clausula" ||
  jsIncludes name "juridico" || jsIncludes name "caratula"

/-- The tech-keyword test of `classifyFile` (part_000, lines 62–68). -/
def hasTechKeyword (name : String) : Bool :=
  jsIncludes name "ppt" || jsIncludes name "tecnic" || jsIncludes name "prescrip" ||
  jsIncludes name "memoria" || jsIncludes name "proyecto"

/-- Embeds `classifyFile` (part_000, lines 47–73): normalise the file name, check the
admin keywords, then the tech keywords, else UNKNOWN. -/
def classifyFile (file : JSFile) : Cls :=
  let name := normalizeText file.name
  if hasAdminKeyword name then .ADMIN
  else if hasTechKeyword name then .TECH
  else .UNKNOWN

/-- Embeds `isRelevantLink` (part_000, lines 173–179). -/
def isRelevantLink (url : String) : Bool :=
  let lower := jsToLower url
  if jsStartsWith lower "mailto:" then false
  else if jsIncludes lower "google.com" || jsIncludes lower "facebook" ||
          jsIncludes lower "twitter" || jsIncludes lower "linkedin" then false
  else if jsIncludes lower "maps." || jsIncludes lower "youtube" then false
  else true

/-- A browser `Blob`: MIME type, byte length, and its contents read as text
(`blob.text()`, modelled as a total field of the blob). -/
structure Blob where
  type : String
  size : Nat
  text : String
deriving DecidableEq, Repr

/-- A fetch `Response` as `tryDownload` consumes it: the `ok` flag, the
materialised body blob, and the optional `Content-Disposition` header. -/
structure RespM where
  ok : Bool
  blob : Blob
  contentDisposition : Option String
deriving DecidableEq, Repr

/-- The filename-extracting regular expression applied to a Content-Disposition
value (source line 128): take what follows the first `filename=`, skip one
optional single or double quote, and read up to the next quote. An empty
capture means no match. -/
def extractDispositionFilename (d : String) : String :=
  let rec go : List Char → Option (List Char)
    | [] => none
    | c :: rest =>
      if ("filename=".data).isPrefixOf (c :: rest) then
        some ((c :: rest).drop "filename=".length)
      else go rest
  match go d.data with
  | none => ""
  | some rest =>
    let rest := match rest with
      | q :: rs => if q = '\'' ∨ q = '"' then rs else rest
      | [] => rest
    String.mk (rest.takeWhile (fun c => c ≠ '\'' ∧ c ≠ '"'))

/-- The inner `tryDownload` closure of `downloadFileFromUrl` (part_000, lines
103–136), applied to the outcome of its fetch: `none` stands for a network
error, abort or timeout (every exception lands in the surrounding catch and
yields `null`). Returns the blob plus the extracted filename (`""` when none).
-/
def tryDownload (fetched : Option RespM) : Option (Blob × String) :=
  match fetched with
  | none => none
  | some response =>
    if !response.ok then none
    else
      let blob := response.blob
      if jsIncludes blob.type "text/html" || blob.size < 2000 then
        if jsIncludes blob.text "<html" || jsIncludes blob.text "Error" ||
           jsIncludes blob.text "Denied" then none
        else if jsIncludes blob.type "text/html" then none
        else
          tryDownloadName blob response.contentDisposition
      else
        tryDownloadName blob response.contentDisposition
where
  /-- Filename extraction from Content-Disposition (lines 124–132). -/
  tryDownloadName (blob : Blob) (disposition : Option String) : Option (Blob × String) :=
    let filename :=
      match disposition with
      | none => ""
      | some d => if jsIncludes d "filename=" then extractDispositionFilename d else ""
    some (blob, filename)

/-- Embeds `downloadFileFromUrl` (part_000, lines 100–170). `attempt1` and `attempt2`
are the fetch outcomes of the two proxy attempts (corsproxy, then AllOrigins);
`now` is `new Date().getTime()` at the moment the fallback name is built. -/
def downloadFileFromUrl (url : String) (defaultPrefix : String) (now : Nat)
    (attempt1 attempt2 : Option RespM) : Option JSFile :=
  if url = "" || !jsStartsWith url "http" then none
  else
    let result :=
      match tryDownload attempt1 with
      | some r => some r
      | none => tryDownload attempt2
    match result with
    | none => none
    | some (blob, filename) =>
      let extension :=
        if filename ≠ "" && jsIncludes filename "." then ".pdf"
        else if blob.type = "application/pdf" then ".pdf"
        else if jsIncludes blob.type "zip" then ".zip"
        else if jsIncludes blob.type "word" then ".docx"
        else ".pdf"
      let finalName :=
        if filename ≠ "" then filename
        else defaultPrefix ++ "_" ++ Nat.repr now ++ extension
      some { name := finalName, size := blob.size, type := blob.type }

/-- Embeds `probeAndDownloadLink` (part_000, lines 182–193). `env` gives, per URL, the
two proxy-fetch outcomes the run would see, and `now` the clock reading. -/
def probeAndDownloadLink (env : String → Option RespM × Option RespM) (now : Nat)
    (url : String) : Option (JSFile × Cls) :=
  if !isRelevantLink url then none
  else
    match downloadFileFromUrl url "doc" now (env url).1 (env url).2 with
    | some file => some (file, classifyFile file)
    | none => none

/-- The `results` record of `probeLinksInBatches`: the admin and tech slots. -/
structure SlotState where
  admin : Option JSFile
  tech : Option JSFile
deriving DecidableEq, Repr

/-- The per-result assignment of the inner loop of `probeLinksInBatches` (part_000,
lines 216–224). -/
def assignOne (st : SlotState) (res : Option (JSFile × Cls)) : SlotState :=
  match res with
  | none => st
  | some (file, ty) =>
    if ty = .ADMIN ∧ st.admin = none then { st with admin := some file }
    else if ty = .TECH ∧ st.tech = none then { st with tech := some file }
    else if ty = .UNKNOWN then
      if st.admin = none then { st with admin := some file }
      else if st.tech = none then { st with tech := some file }
      else st
    else st

/-- Folding the results of one group into the slots (the `for (const res of
batchResults)` loop). -/
def assignResults (st : SlotState) (batchResults : List (Option (JSFile × Cls))) : SlotState :=
  batchResults.foldl assignOne st

/-- Worker for `Array.from(new Set(links))`: deduplication keeping first occurrences in
order. -/
def dedupAux (seen : List String) : List String → List String
  | [] => []
  | x :: rest =>
    if seen.contains x then dedupAux seen rest
    else x :: dedupAux (x :: seen) rest

/-- JS `Array.from(new Set(links))`. -/
def jsSetDedup (links : List String) : List String := dedupAux [] links

/-- The batch loop of `probeLinksInBatches` (part_000, lines 208–229),
`BATCH_SIZE = 4`: peel groups of at most four links, stopping before a group
when both slots are filled. Returns the final slots, the list of groups
issued, and the `(processed, total)` arguments of each progress callback. -/
def runBatches (probe : String → Option (JSFile × Cls)) (total : Nat) :
    List String → SlotState → Nat → SlotState × List (List String) × List (Nat × Nat)
  | [], st, _ => (st, [], [])
  | a :: b :: c :: d :: rest, st, processed =>
    if st.admin.isSome && st.tech.isSome then (st, [], [])
    else
      let batch := [a, b, c, d]
      let st1 := assignResults st (batch.map probe)
      let processed1 := processed + batch.length
      let out := runBatches probe total rest st1 processed1
      (out.1, batch :: out.2.1, (min processed1 total, total) :: out.2.2)
  | rem, st, processed =>
    if st.admin.isSome && st.tech.isSome then (st, [], [])
    else
      let st1 := assignResults st (rem.map probe)
      let processed1 := processed + rem.length
      (st1, [rem], [(min processed1 total, total)])

/-- Embeds `probeLinksInBatches` (part_000, lines 196–232): deduplicate, filter by
relevance, then probe in sequential groups of 4 with early exit. -/
def probeLinksInBatches (probe : String → Option (JSFile × Cls)) (links : List String) :
    SlotState × List (List String) × List (Nat × Nat) :=
  let uniqueLinks := (jsSetDedup links).filter isRelevantLink
  runBatches probe uniqueLinks.length uniqueLinks ⟨none, none⟩ 0

/-- An `<a>` element as `scrapeDocsFromWeb` reads it: `getAttribute` results
are `Option String` (`none` for a missing attribute), `textContent` likewise.
-/
structure Anchor where
  href : Option String
  text : Option String
  title : Option String
  ariaLabel : Option String
  id : Option String
  className : Option String
deriving DecidableEq, Repr

/-- Embeds `resolveUrl` inside `scrapeDocsFromWeb` (part_000, lines 253–260):
`urlJoin href` stands for `new URL(href, pageUrl).href`, with `none` for the
constructor throwing; the catch falls back to the raw href. -/
def resolveUrl (urlJoin : String → Option String) (href : String) : String :=
  if jsStartsWith href "http" then href
  else (urlJoin href).getD href

/-- The admin keyword test of the scan loop of the scraper (part_000, lines
275–282). -/
def scrapeIsAdmin (combinedText : String) : Bool :=
  jsIncludes combinedText "pcap" || jsIncludes combinedText "clausulas" ||
  jsIncludes combinedText "administrativ" || jsIncludes combinedText "caratula" ||
  jsIncludes combinedText "bases" || jsIncludes combinedText "anexo"

/-- The tech keyword test of the scan loop of the scraper (part_000, lines
284–290). -/
def scrapeIsTech (combinedText : String) : Bool :=
  jsIncludes combinedText "ppt" || jsIncludes combinedText "prescripciones" ||
  jsIncludes combinedText "tecnic" || jsIncludes combinedText "memoria" ||
  jsIncludes combinedText "proyecto"

/-- The state threaded through the scan loop of the scraper. -/
structure ScrapeState where
  adminUrl : Option String
  techUrl : Option String
  potentialPdfs : List String
deriving DecidableEq, Repr

/-- The skip test of the scan loop (line 270): the anchor is dropped when the
href is missing or empty, starts with "javascript", or equals "#" or "/". -/
def anchorSkipped (a : Anchor) : Bool :=
  match a.href with
  | none => true
  | some h => h = "" || jsStartsWith h "javascript" || h = "#" || h = "/"

/-- The combined text the scraper classifies:
`normalizeText(`"${text} ${title} ${ariaLabel} ${id} ${className} ${href}"`)`.
-/
def anchorCombinedText (a : Anchor) (href : String) : String :=
  normalizeText ((a.text.getD "") ++ " " ++ (a.title.getD "") ++ " " ++
    (a.ariaLabel.getD "") ++ " " ++ (a.id.getD "") ++ " " ++
    (a.className.getD "") ++ " " ++ href)

/-- One iteration of the `for (const link of links)` loop of the scraper (part_000,
lines 262–300). -/
def scanAnchor (urlJoin : String → Option String) (st : ScrapeState) (a : Anchor) :
    ScrapeState :=
  if anchorSkipped a then st
  else
    let href := (a.href).getD ""
    let fullUrl := resolveUrl urlJoin href
    let combinedText := anchorCombinedText a href
    let isFile := jsEndsWith (jsToLower fullUrl) ".pdf" || jsEndsWith (jsToLower fullUrl) ".zip"
    let st := if isFile then { st with potentialPdfs := st.potentialPdfs ++ [fullUrl] } else st
    let st := if st.adminUrl = none ∧ scrapeIsAdmin combinedText then
        { st with adminUrl := some fullUrl } else st
    let st := if st.techUrl = none ∧ scrapeIsTech combinedText then
        { st with techUrl := some fullUrl } else st
    st

/-- The whole scan loop. -/
def scanAnchors (urlJoin : String → Option String) (anchors : List Anchor)
    (st : ScrapeState) : ScrapeState :=
  anchors.foldl (scanAnchor urlJoin) st

/-- The positional backfill after the scan (part_000, lines 302–305); the
truthiness tests `potentialPdfs[0]` / `potentialPdfs[1]` require the element to
exist and be a nonempty string. -/
def backfill (st : ScrapeState) : Option String × Option String :=
  if st.potentialPdfs.length > 0 then
    let adminUrl :=
      match st.adminUrl, st.potentialPdfs.get? 0 with
      | none, some p => if p ≠ "" then some p else none
      | a, _ => a
    let techUrl :=
      match st.techUrl, st.potentialPdfs.get? 1 with
      | none, some p => if p ≠ "" then some p else none
      | t, _ => t
    (adminUrl, techUrl)
  else (st.adminUrl, st.techUrl)

/-- The pure core of `scrapeDocsFromWeb` (part_000, lines 235–313), given the
anchors parsed from the fetched page: scan in document order, then backfill
from the generic `.pdf`/`.zip` candidates. -/
def scrapeDocsFromWeb (urlJoin : String → Option String) (anchors : List Anchor) :
    Option String × Option String :=
  backfill (scanAnchors urlJoin anchors ⟨none, none, []⟩)

/-- The resolved URL an anchor contributes when it is not skipped. -/
def anchorFullUrl (urlJoin : String → Option String) (a : Anchor) : String :=
  resolveUrl urlJoin ((a.href).getD "")

/-- The anchor survives the skip test and its combined text matches the admin
keyword set. -/
def anchorAdminMatch (a : Anchor) : Bool :=
  !anchorSkipped a && scrapeIsAdmin (anchorCombinedText a ((a.href).getD ""))

/-- The anchor survives the skip test and its combined text matches the tech
keyword set. -/
def anchorTechMatch (a : Anchor) : Bool :=
  !anchorSkipped a && scrapeIsTech (anchorCombinedText a ((a.href).getD ""))

/-- The record `extractMetadataFromTenderFile` resolves with. -/
structure TenderMeta where
  name : String
  adminUrl : String
  techUrl : String
  tenderPageUrl : String
  budget : String
  scoringSystem : String
deriving DecidableEq, Repr

/-- The all-empty record returned for a missing response text. -/
def emptyMeta : TenderMeta := ⟨"", "", "", "", "", ""⟩

/-- The response handling of `extractMetadataFromTenderFile` (part_000, lines
353–370). `callResult` is the outcome of the `generateContent` call:
`.error` when the service call threw, `.ok t` when it resolved with response
text `t` (`none` when `response.text` is undefined). `parse` models
`JSON.parse`, `none` standing for a `SyntaxError`; the catch logs and
rethrows, so any throw becomes `.error`. -/
def extractMetadataFromTenderFile (parse : String → Option TenderMeta)
    (callResult : Except String (Option String)) : Except String TenderMeta :=
  match callResult with
  | .error e => .error e
  | .ok text =>
    if text = none ∨ text = some "" then .ok emptyMeta
    else
      match text with
      | none => .ok emptyMeta
      | some s =>
        match parse s with
        | some meta => .ok meta
        | none => .error "SyntaxError"

/-- A healthy PDF response carrying an admin-classified filename. -/
def adminResp : RespM :=
  ⟨true, ⟨"application/pdf", 3000, "x"⟩, some "filename=PCAP_2024.pdf"⟩

/-- A healthy PDF response carrying a tech-classified filename. -/
def techResp : RespM :=
  ⟨true, ⟨"application/pdf", 3000, "x"⟩, some "filename=Memoria_Tecnica.pdf"⟩

/-- Ten distinct, relevant candidate URLs. -/
def tenLinks : List String :=
  ["https://example.com/d1", "https://example.com/d2", "https://example.com/d3",
   "https://example.com/d4", "https://example.com/d5", "https://example.com/d6",
   "https://example.com/d7", "https://example.com/d8", "https://example.com/d9",
   "https://example.com/d10"]

/-- The network of the C1 scenario: only the 2nd URL serves an ADMIN-named
file and only the 5th a TECH-named file; every other probe fails outright. -/
def scenarioEnv (url : String) : Option RespM × Option RespM :=
  if url = "https://example.com/d2" then (some adminResp, none)
  else if url = "https://example.com/d5" then (some techResp, none)
  else (none, none)

theorem char_toNat_ofNat_valid (n : Nat) (h : n < 55296) : (Char.ofNat n).toNat = n := by
  have hv : n.isValidChar := Or.inl h
  rw [Char.ofNat, dif_pos hv]
  simp [Char.ofNatAux, Char.toNat, UInt32.toNat, BitVec.toNat_ofNatLt]

theorem char_toLower_of_not_upper (c : Char) (h : ¬(65 ≤ c.toNat ∧ c.toNat ≤ 90)) :
    c.toLower = c := by
  rw [Char.toLower, if_neg]
  exact fun hc => h ⟨hc.1, hc.2⟩

theorem char_toLower_toNat_of_upper (c : Char) (h65 : 65 ≤ c.toNat) (h90 : c.toNat ≤ 90) :
    c.toLower.toNat = c.toNat + 32 := by
  rw [Char.toLower, if_pos ⟨h65, h90⟩]
  exact char_toNat_ofNat_valid _ (by omega)

theorem char_ne_of_toNat_ne {c d : Char} (h : c.toNat ≠ d.toNat) : c ≠ d :=
  fun e => h (e ▸ rfl)

theorem lowerChar_of_ne (c : Char)
    (h1 : c ≠ 'Á') (h2 : c ≠ 'É') (h3 : c ≠ 'Í') (h4 : c ≠ 'Ó') (h5 : c ≠ 'Ú')
    (h6 : c ≠ 'Ü') (h7 : c ≠ 'Ñ') : lowerChar c = c.toLower := by
  rw [lowerChar, if_neg h1, if_neg h2, if_neg h3, if_neg h4, if_neg h5, if_neg h6, if_neg h7]

theorem nfdChar_of_ne (c : Char)
    (h1 : c ≠ 'á') (h2 : c ≠ 'é') (h3 : c ≠ 'í') (h4 : c ≠ 'ó') (h5 : c ≠ 'ú')
    (h6 : c ≠ 'ü') (h7 : c ≠ 'ñ') : nfdChar c = [c] := by
  rw [nfdChar, if_neg h1, if_neg h2, if_neg h3, if_neg h4, if_neg h5, if_neg h6, if_neg h7]

theorem isCombiningMark_eq_false_of_lt (c : Char) (h : c.toNat < 768) :
    isCombiningMark c = false := by
  simp only [isCombiningMark, Bool.and_eq_false_iff, decide_eq_false_iff_not]
  omega

theorem lowerChar_of_toNat_lt (c : Char) (h : c.toNat < 193) : lowerChar c = c.toLower := by
  apply lowerChar_of_ne <;> exact char_ne_of_toNat_ne (by intro e; rw [e] at h; revert h; decide)

theorem nfdChar_of_toNat_lt (c : Char) (h : c.toNat < 225) : nfdChar c = [c] := by
  apply nfdChar_of_ne <;> exact char_ne_of_toNat_ne (by intro e; rw [e] at h; revert h; decide)

theorem normChar_of_plain (c : Char) (hlt : c.toNat < 193)
    (hU : ¬(65 ≤ c.toNat ∧ c.toNat ≤ 90)) (hM : isCombiningMark c = false) :
    normChar c = [c] := by
  rw [normChar, lowerChar_of_toNat_lt c hlt, char_toLower_of_not_upper c hU,
    nfdChar_of_toNat_lt c (by omega)]
  simp [hM]

/-- Every character emitted by `normChar` is a fixed point of normalisation. -/
theorem normChar_fixpoints (c : Char) : ∀ d ∈ normChar c, normChar d = [d] := by
  by_cases hA1 : c = 'Á'; · subst hA1; decide
  by_cases hA2 : c = 'É'; · subst hA2; decide
  by_cases hA3 : c = 'Í'; · subst hA3; decide
  by_cases hA4 : c = 'Ó'; · subst hA4; decide
  by_cases hA5 : c = 'Ú'; · subst hA5; decide
  by_cases hA6 : c = 'Ü'; · subst hA6; decide
  by_cases hA7 : c = 'Ñ'; · subst hA7; decide
  by_cases hB1 : c = 'á'; · subst hB1; decide
  by_cases hB2 : c = 'é'; · subst hB2; decide
  by_cases hB3 : c = 'í'; · subst hB3; decide
  by_cases hB4 : c = 'ó'; · subst hB4; decide
  by_cases hB5 : c = 'ú'; · subst hB5; decide
  by_cases hB6 : c = 'ü'; · subst hB6; decide
  by_cases hB7 : c = 'ñ'; · subst hB7; decide
  intro d hd
  by_cases hU : 65 ≤ c.toNat ∧ c.toNat ≤ 90
  · have hlow : c.toLower.toNat = c.toNat + 32 := char_toLower_toNat_of_upper c hU.1 hU.2
    have hrange : 97 ≤ c.toLower.toNat ∧ c.toLower.toNat ≤ 122 := by omega
    have hnc : normChar c = [c.toLower] := by
      rw [normChar, lowerChar_of_toNat_lt c (by omega),
        nfdChar_of_toNat_lt c.toLower (by omega)]
      simp [isCombiningMark_eq_false_of_lt c.toLower (by omega)]
    rw [hnc, List.mem_singleton] at hd
    subst hd
    exact normChar_of_plain _ (by omega) (by omega) (isCombiningMark_eq_false_of_lt _ (by omega))
  · have hl : lowerChar c = c := by
      rw [lowerChar_of_ne c hA1 hA2 hA3 hA4 hA5 hA6 hA7, char_toLower_of_not_upper c hU]
    have hn : nfdChar c = [c] := nfdChar_of_ne c hB1 hB2 hB3 hB4 hB5 hB6 hB7
    by_cases hM : isCombiningMark c
    · rw [normChar, hl, hn] at hd
      simp [hM] at hd
    · have hM' : isCombiningMark c = false := by simpa using hM
      have hnc : normChar c = [c] := by rw [normChar, hl, hn]; simp [hM']
      rw [hnc, List.mem_singleton] at hd
      subst hd
      exact hnc

theorem flatMap_normChar_self (m : List Char) (h : ∀ d ∈ m, normChar d = [d]) :
    m.flatMap normChar = m := by
  induction m with
  | nil => rfl
  | cons a l ih =>
    rw [List.flatMap_cons, h a (List.mem_cons_self a l),
      ih (fun d hd => h d (List.mem_cons_of_mem a hd))]
    rfl

theorem flatMap_normChar_idem (l : List Char) :
    (l.flatMap normChar).flatMap normChar = l.flatMap normChar := by
  induction l with
  | nil => rfl
  | cons a l ih =>
    rw [List.flatMap_cons, List.flatMap_append, ih,
      flatMap_normChar_self _ (normChar_fixpoints a)]

/-- C9: the text normaliser is idempotent — for every string `s`,
`normalizeText (normalizeText s) = normalizeText s` — and it identifies
diacritic/case variants: `normalizeText "Técnico" = normalizeText "tecnico"`.
-/
theorem C9_normalizeText_idempotent_and_identifies_variants :
    (∀ s : String, normalizeText (normalizeText s) = normalizeText s) ∧
    normalizeText "Técnico" = normalizeText "tecnico" := by
  refine ⟨fun s => ?_, by decide⟩
  rw [normalizeText, normalizeText]
  exact congrArg String.mk (flatMap_normChar_idem s.data)

/-- C3 counterexample: the URL `https://example.com/mailto:foo` contains
`mailto:` in lowercased form, yet `isRelevantLink` returns `true` for it — the
source tests `mailto:` with `startsWith`, not `includes`, so the claim as
stated fails. -/
theorem C3_counterexample_mailto_mid_url :
    jsIncludes (jsToLower "https://example.com/mailto:foo") "mailto:" = true ∧
    isRelevantLink "https://example.com/mailto:foo" = true := by decide

/-- C3 (amended): for every URL whose lowercased form starts with `mailto:`,
or contains `facebook`, `youtube` or `maps.`, the relevance filter returns
`false`; and it returns `true` for `https://example.com/doc.pdf`. -/
theorem C3_relevance_filter :
    (∀ url : String, jsStartsWith (jsToLower url) "mailto:" = true →
      isRelevantLink url = false) ∧
    (∀ url : String, jsIncludes (jsToLower url) "facebook" = true →
      isRelevantLink url = false) ∧
    (∀ url : String, jsIncludes (jsToLower url) "youtube" = true →
      isRelevantLink url = false) ∧
    (∀ url : String, jsIncludes (jsToLower url) "maps." = true →
      isRelevantLink url = false) ∧
    isRelevantLink "https://example.com/doc.pdf" = true := by
  refine ⟨fun url h => ?_, fun url h => ?_, fun url h => ?_, fun url h => ?_, by decide⟩ <;>
    simp [isRelevantLink, h]

/-- C3 witness: the amended filter facts at concrete URLs. -/
theorem C3_relevance_filter_witness :
    isRelevantLink "mailto:someone@example.com" = false ∧
    isRelevantLink "https://facebook.com/page" = false ∧
    isRelevantLink "https://youtube.com/watch" = false ∧
    isRelevantLink "https://maps.example.org/q" = false :=
  ⟨C3_relevance_filter.1 _ (by decide), C3_relevance_filter.2.1 _ (by decide),
   C3_relevance_filter.2.2.1 _ (by decide), C3_relevance_filter.2.2.2.1 _ (by decide)⟩

/-- C8: `classifyFile` returns ADMIN when the normalised filename contains an
administrative keyword, else TECH when it contains a technical keyword, else
UNKNOWN (admin checked before tech); `PCAP_2024.pdf` → ADMIN,
`Memoria_Tecnica.pdf` → TECH, `random_file.pdf` → UNKNOWN. -/
theorem C8_classifyFile_admin_before_tech :
    (∀ f : JSFile, hasAdminKeyword (normalizeText f.name) = true →
      classifyFile f = .ADMIN) ∧
    (∀ f : JSFile, hasAdminKeyword (normalizeText f.name) = false →
      hasTechKeyword (normalizeText f.name) = true → classifyFile f = .TECH) ∧
    (∀ f : JSFile, hasAdminKeyword (normalizeText f.name) = false →
      hasTechKeyword (normalizeText f.name) = false → classifyFile f = .UNKNOWN) ∧
    (∀ (size : Nat) (ty : String),
      classifyFile ⟨"PCAP_2024.pdf", size, ty⟩ = .ADMIN ∧
      classifyFile ⟨"Memoria_Tecnica.pdf", size, ty⟩ = .TECH ∧
      classifyFile ⟨"random_file.pdf", size, ty⟩ = .UNKNOWN) := by
  refine ⟨fun f h => ?_, fun f h1 h2 => ?_, fun f h1 h2 => ?_,
    fun size ty => ⟨rfl, rfl, rfl⟩⟩
  · simp [classifyFile, h]
  · simp [classifyFile, h1, h2]
  · simp [classifyFile, h1, h2]

/-- C8 witness: the keyword branches at concrete files. -/
theorem C8_classifyFile_admin_before_tech_witness :
    classifyFile ⟨"pliego_ADMIN.pdf", 1, "application/pdf"⟩ = .ADMIN ∧
    classifyFile ⟨"proyecto_v2.pdf", 1, "application/pdf"⟩ = .TECH ∧
    classifyFile ⟨"otros.pdf", 1, "application/pdf"⟩ = .UNKNOWN :=
  ⟨C8_classifyFile_admin_before_tech.1 _ (by decide),
   C8_classifyFile_admin_before_tech.2.1 _ (by decide) (by decide),
   C8_classifyFile_admin_before_tech.2.2.1 _ (by decide) (by decide)⟩

/-- C6 counterexample: when the document-understanding call resolves but the
response text is missing (`response.text` undefined), the function returns a
normal all-empty result instead of propagating an error. -/
theorem C6_counterexample_missing_text_returns_empty :
    extractMetadataFromTenderFile (fun _ => none) (.ok none) = .ok emptyMeta := rfl

/-- C6 (amended): a thrown service-call error is propagated, and malformed
response text (a `JSON.parse` failure) is propagated as an error; but missing
or empty response text yields a normal result with all fields empty. -/
theorem C6_extractMetadata_error_handling :
    (∀ (parse : String → Option TenderMeta) (e : String),
      extractMetadataFromTenderFile parse (.error e) = .error e) ∧
    (∀ (parse : String → Option TenderMeta) (s : String), s ≠ "" → parse s = none →
      extractMetadataFromTenderFile parse (.ok (some s)) = .error "SyntaxError") ∧
    (∀ parse : String → Option TenderMeta,
      extractMetadataFromTenderFile parse (.ok none) = .ok emptyMeta) ∧
    (∀ parse : String → Option TenderMeta,
      extractMetadataFromTenderFile parse (.ok (some "")) = .ok emptyMeta) := by
  refine ⟨fun parse e => rfl, fun parse s hs hp => ?_, fun parse => rfl, fun parse => rfl⟩
  simp [extractMetadataFromTenderFile, hs, hp]

/-- C6 witness: malformed nonempty response text produces an error. -/
theorem C6_extractMetadata_error_handling_witness :
    extractMetadataFromTenderFile (fun _ => none) (.ok (some "not json")) =
      .error "SyntaxError" :=
  C6_extractMetadata_error_handling.2.1 (fun _ => none) "not json" (by decide) rfl

theorem assignOne_admin_mono (st : SlotState) (res : Option (JSFile × Cls)) (f : JSFile)
    (h : st.admin = some f) : (assignOne st res).admin = some f := by
  cases res with
  | none => exact h
  | some r =>
    obtain ⟨file, ty⟩ := r
    simp only [assignOne]
    split_ifs <;> simp_all

theorem assignOne_tech_mono (st : SlotState) (res : Option (JSFile × Cls)) (f : JSFile)
    (h : st.tech = some f) : (assignOne st res).tech = some f := by
  cases res with
  | none => exact h
  | some r =>
    obtain ⟨file, ty⟩ := r
    simp only [assignOne]
    split_ifs <;> simp_all

theorem assignResults_admin_mono (st : SlotState) (rs : List (Option (JSFile × Cls)))
    (f : JSFile) (h : st.admin = some f) : (assignResults st rs).admin = some f := by
  induction rs generalizing st with
  | nil => exact h
  | cons r rs ih => exact ih _ (assignOne_admin_mono st r f h)

theorem assignResults_tech_mono (st : SlotState) (rs : List (Option (JSFile × Cls)))
    (f : JSFile) (h : st.tech = some f) : (assignResults st rs).tech = some f := by
  induction rs generalizing st with
  | nil => exact h
  | cons r rs ih => exact ih _ (assignOne_tech_mono st r f h)

theorem runBatches_admin_mono (probe : String → Option (JSFile × Cls)) (total : Nat) :
    ∀ (rem : List String) (st : SlotState) (processed : Nat) (f : JSFile),
      st.admin = some f → (runBatches probe total rem st processed).1.admin = some f
  | [], st, processed, f, h => h
  | [a], st, processed, f, h => by
    simp only [runBatches]
    split
    · exact h
    · exact assignResults_admin_mono st _ f h
  | [a, b], st, processed, f, h => by
    simp only [runBatches]
    split
    · exact h
    · exact assignResults_admin_mono st _ f h
  | [a, b, c], st, processed, f, h => by
    simp only [runBatches]
    split
    · exact h
    · exact assignResults_admin_mono st _ f h
  | a :: b :: c :: d :: rest, st, processed, f, h => by
    simp only [runBatches]
    split
    · exact h
    · exact runBatches_admin_mono probe total rest _ _ f
        (assignResults_admin_mono st _ f h)

theorem runBatches_tech_mono (probe : String → Option (JSFile × Cls)) (total : Nat) :
    ∀ (rem : List String) (st : SlotState) (processed : Nat) (f : JSFile),
      st.tech = some f → (runBatches probe total rem st processed).1.tech = some f
  | [], st, processed, f, h => h
  | [a], st, processed, f, h => by
    simp only [runBatches]
    split
    · exact h
    · exact assignResults_tech_mono st _ f h
  | [a, b], st, processed, f, h => by
    simp only [runBatches]
    split
    · exact h
    · exact assignResults_tech_mono st _ f h
  | [a, b, c], st, processed, f, h => by
    simp only [runBatches]
    split
    · exact h
    · exact assignResults_tech_mono st _ f h
  | a :: b :: c :: d :: rest, st, processed, f, h => by
    simp only [runBatches]
    split
    · exact h
    · exact runBatches_tech_mono probe total rest _ _ f
        (assignResults_tech_mono st _ f h)

/-- C2: within one probing run a filled slot is never overwritten — at the
level of a single result, of a whole group, and across all groups — and an
UNKNOWN-classified file fills whichever slot is still empty, admin first. -/
theorem C2_slots_write_once_unknown_fills_empty :
    (∀ (st : SlotState) (res : Option (JSFile × Cls)) (f : JSFile),
      st.admin = some f → (assignOne st res).admin = some f) ∧
    (∀ (st : SlotState) (res : Option (JSFile × Cls)) (f : JSFile),
      st.tech = some f → (assignOne st res).tech = some f) ∧
    (∀ (st : SlotState) (rs : List (Option (JSFile × Cls))) (f : JSFile),
      st.admin = some f → (assignResults st rs).admin = some f) ∧
    (∀ (st : SlotState) (rs : List (Option (JSFile × Cls))) (f : JSFile),
      st.tech = some f → (assignResults st rs).tech = some f) ∧
    (∀ (probe : String → Option (JSFile × Cls)) (total : Nat) (rem : List String)
      (st : SlotState) (processed : Nat) (f : JSFile), st.admin = some f →
      (runBatches probe total rem st processed).1.admin = some f) ∧
    (∀ (probe : String → Option (JSFile × Cls)) (total : Nat) (rem : List String)
      (st : SlotState) (processed : Nat) (f : JSFile), st.tech = some f →
      (runBatches probe total rem st processed).1.tech = some f) ∧
    (∀ (st : SlotState) (file : JSFile), st.admin = none →
      assignOne st (some (file, .UNKNOWN)) = { st with admin := some file }) ∧
    (∀ (st : SlotState) (file : JSFile) (g : JSFile), st.admin = some g →
      st.tech = none →
      assignOne st (some (file, .UNKNOWN)) = { st with tech := some file }) := by
  refine ⟨assignOne_admin_mono, assignOne_tech_mono, assignResults_admin_mono,
    assignResults_tech_mono, runBatches_admin_mono, runBatches_tech_mono,
    fun st file h => ?_, fun st file g h1 h2 => ?_⟩
  · simp [assignOne, h]
  · simp [assignOne, h1, h2]

/-- C2 witness: the write-once and UNKNOWN-preference facts at concrete
slot states. -/
theorem C2_slots_write_once_unknown_fills_empty_witness :
    (assignOne ⟨some ⟨"a.pdf", 1, "t"⟩, none⟩ (some (⟨"b.pdf", 2, "t"⟩, .ADMIN))).admin =
      some ⟨"a.pdf", 1, "t"⟩ ∧
    (assignOne ⟨none, some ⟨"a.pdf", 1, "t"⟩⟩ (some (⟨"b.pdf", 2, "t"⟩, .TECH))).tech =
      some ⟨"a.pdf", 1, "t"⟩ ∧
    (assignResults ⟨some ⟨"a.pdf", 1, "t"⟩, none⟩ [some (⟨"b.pdf", 2, "t"⟩, .ADMIN)]).admin =
      some ⟨"a.pdf", 1, "t"⟩ ∧
    (assignResults ⟨none, some ⟨"a.pdf", 1, "t"⟩⟩ [some (⟨"b.pdf", 2, "t"⟩, .TECH)]).tech =
      some ⟨"a.pdf", 1, "t"⟩ ∧
    (runBatches (fun _ => none) 1 ["http://x"] ⟨some ⟨"a.pdf", 1, "t"⟩, none⟩ 0).1.admin =
      some ⟨"a.pdf", 1, "t"⟩ ∧
    (runBatches (fun _ => none) 1 ["http://x"] ⟨none, some ⟨"a.pdf", 1, "t"⟩⟩ 0).1.tech =
      some ⟨"a.pdf", 1, "t"⟩ ∧
    assignOne ⟨none, none⟩ (some (⟨"u.pdf", 3, "t"⟩, .UNKNOWN)) =
      ⟨some ⟨"u.pdf", 3, "t"⟩, none⟩ ∧
    assignOne ⟨some ⟨"a.pdf", 1, "t"⟩, none⟩ (some (⟨"u.pdf", 3, "t"⟩, .UNKNOWN)) =
      ⟨some ⟨"a.pdf", 1, "t"⟩, some ⟨"u.pdf", 3, "t"⟩⟩ :=
  ⟨C2_slots_write_once_unknown_fills_empty.1 _ _ _ rfl,
   C2_slots_write_once_unknown_fills_empty.2.1 _ _ _ rfl,
   C2_slots_write_once_unknown_fills_empty.2.2.1 _ _ _ rfl,
   C2_slots_write_once_unknown_fills_empty.2.2.2.1 _ _ _ rfl,
   C2_slots_write_once_unknown_fills_empty.2.2.2.2.1 _ _ _ _ _ _ rfl,
   C2_slots_write_once_unknown_fills_empty.2.2.2.2.2.1 _ _ _ _ _ _ rfl,
   C2_slots_write_once_unknown_fills_empty.2.2.2.2.2.2.1 _ _ rfl,
   C2_slots_write_once_unknown_fills_empty.2.2.2.2.2.2.2 _ _ _ rfl rfl⟩

/-- C10: a probe result classified ADMIN arriving when the admin slot is
occupied is discarded entirely (never placed into the tech slot, even when
empty), and symmetrically for TECH results; the state is left unchanged. -/
theorem C10_classified_result_discarded_when_slot_full :
    (∀ (st : SlotState) (file g : JSFile), st.admin = some g →
      assignOne st (some (file, .ADMIN)) = st) ∧
    (∀ (st : SlotState) (file g : JSFile), st.tech = some g →
      assignOne st (some (file, .TECH)) = st) := by
  refine ⟨fun st file g h => ?_, fun st file g h => ?_⟩ <;> simp [assignOne, h]

/-- C10 witness: an ADMIN result is dropped when the admin slot is full and
the tech slot empty, and a TECH result when the tech slot is full and the
admin slot empty. -/
theorem C10_classified_result_discarded_when_slot_full_witness :
    assignOne ⟨some ⟨"a.pdf", 1, "t"⟩, none⟩ (some (⟨"b.pdf", 2, "t"⟩, .ADMIN)) =
      ⟨some ⟨"a.pdf", 1, "t"⟩, none⟩ ∧
    assignOne ⟨none, some ⟨"c.pdf", 1, "t"⟩⟩ (some (⟨"d.pdf", 2, "t"⟩, .TECH)) =
      ⟨none, some ⟨"c.pdf", 1, "t"⟩⟩ :=
  ⟨C10_classified_result_discarded_when_slot_full.1 _ _ _ rfl,
   C10_classified_result_discarded_when_slot_full.2 _ _ _ rfl⟩

theorem runBatches_of_full (probe : String → Option (JSFile × Cls)) (total : Nat) :
    ∀ (rem : List String) (st : SlotState) (processed : Nat),
      st.admin.isSome = true → st.tech.isSome = true →
      runBatches probe total rem st processed = (st, [], [])
  | [], st, processed, h1, h2 => rfl
  | [a], st, processed, h1, h2 => by simp [runBatches, h1, h2]
  | [a, b], st, processed, h1, h2 => by simp [runBatches, h1, h2]
  | [a, b, c], st, processed, h1, h2 => by simp [runBatches, h1, h2]
  | a :: b :: c :: d :: rest, st, processed, h1, h2 => by simp [runBatches, h1, h2]

theorem runBatches_batches_bounded (probe : String → Option (JSFile × Cls)) (total : Nat) :
    ∀ (rem : List String) (st : SlotState) (processed : Nat) (b : List String),
      b ∈ (runBatches probe total rem st processed).2.1 → 0 < b.length ∧ b.length ≤ 4
  | [], _, _, b, hb => by simp [runBatches] at hb
  | [a], st, processed, b, hb => by
    simp only [runBatches] at hb
    split at hb
    · simp at hb
    · simp at hb
      subst hb
      simp only [List.length_cons, List.length_nil]
      omega
  | [a, a2], st, processed, b, hb => by
    simp only [runBatches] at hb
    split at hb
    · simp at hb
    · simp at hb
      subst hb
      simp only [List.length_cons, List.length_nil]
      omega
  | [a, a2, a3], st, processed, b, hb => by
    simp only [runBatches] at hb
    split at hb
    · simp at hb
    · simp at hb
      subst hb
      simp only [List.length_cons, List.length_nil]
      omega
  | a :: a2 :: a3 :: a4 :: rest, st, processed, b, hb => by
    simp only [runBatches] at hb
    split at hb
    · simp at hb
    · simp only [List.mem_cons] at hb
      rcases hb with hb | hb
      · subst hb
        simp only [List.length_cons, List.length_nil]
        omega
      · exact runBatches_batches_bounded probe total rest _ _ b hb

theorem runBatches_cons4_eq (probe : String → Option (JSFile × Cls)) (total : Nat)
    (a b c d : String) (rest : List String) (st : SlotState) (processed : Nat)
    (h : (st.admin.isSome && st.tech.isSome) = false) :
    runBatches probe total (a :: b :: c :: d :: rest) st processed =
      ((runBatches probe total rest (assignResults st ([a, b, c, d].map probe))
          (processed + 4)).1,
       [a, b, c, d] ::
         (runBatches probe total rest (assignResults st ([a, b, c, d].map probe))
           (processed + 4)).2.1,
       (min (processed + 4) total, total) ::
         (runBatches probe total rest (assignResults st ([a, b, c, d].map probe))
           (processed + 4)).2.2) := by
  simp [runBatches, h]

theorem runBatches_flatten_initial (probe : String → Option (JSFile × Cls)) (total : Nat) :
    ∀ (rem : List String) (st : SlotState) (processed : Nat),
      ∃ k, (runBatches probe total rem st processed).2.1.flatten = rem.take k
  | [], _, _ => ⟨0, rfl⟩
  | [a], st, processed => by
    simp only [runBatches]
    split
    · exact ⟨0, rfl⟩
    · exact ⟨1, rfl⟩
  | [a, a2], st, processed => by
    simp only [runBatches]
    split
    · exact ⟨0, rfl⟩
    · exact ⟨2, rfl⟩
  | [a, a2, a3], st, processed => by
    simp only [runBatches]
    split
    · exact ⟨0, rfl⟩
    · exact ⟨3, rfl⟩
  | a :: a2 :: a3 :: a4 :: rest, st, processed => by
    by_cases hfull : (st.admin.isSome && st.tech.isSome) = true
    · rw [Bool.and_eq_true] at hfull
      exact ⟨0, by rw [runBatches_of_full probe total _ st processed hfull.1 hfull.2]; rfl⟩
    · have h : (st.admin.isSome && st.tech.isSome) = false := by simpa using hfull
      obtain ⟨k, hk⟩ := runBatches_flatten_initial probe total rest
        (assignResults st ([a, a2, a3, a4].map probe)) (processed + 4)
      refine ⟨k + 4, ?_⟩
      rw [runBatches_cons4_eq probe total a a2 a3 a4 rest st processed h]
      have e : k + 4 = (((k + 1) + 1) + 1) + 1 := by omega
      rw [e]
      simp only [List.take_succ_cons, List.flatten_cons, List.cons_append,
        List.nil_append, hk]

theorem runBatches_progress_bounded (probe : String → Option (JSFile × Cls)) (total : Nat) :
    ∀ (rem : List String) (st : SlotState) (processed : Nat) (ev : Nat × Nat),
      ev ∈ (runBatches probe total rem st processed).2.2 → ev.1 ≤ ev.2
  | [], _, _, ev, hev => by simp [runBatches] at hev
  | [a], st, processed, ev, hev => by
    simp only [runBatches] at hev
    split at hev
    · simp at hev
    · simp at hev
      subst hev
      simp
  | [a, a2], st, processed, ev, hev => by
    simp only [runBatches] at hev
    split at hev
    · simp at hev
    · simp at hev
      subst hev
      simp
  | [a, a2, a3], st, processed, ev, hev => by
    simp only [runBatches] at hev
    split at hev
    · simp at hev
    · simp at hev
      subst hev
      simp
  | a :: a2 :: a3 :: a4 :: rest, st, processed, ev, hev => by
    simp only [runBatches] at hev
    split at hev
    · simp at hev
    · simp only [List.mem_cons] at hev
      rcases hev with hev | hev
      · subst hev; simp
      · exact runBatches_progress_bounded probe total rest _ _ ev hev

/-- C1: the prober works through the deduplicated, relevance-filtered links in
sequential groups of at most 4 (the issued groups concatenate to a prefix of
that list), stops issuing groups as soon as both slots are filled, reports
`processed ≤ total` at every progress callback, and in the 10-URL scenario —
only the 2nd probe yielding an ADMIN file and only the 5th a TECH file — it
issues exactly two groups (8 URLs probed) and never a third. -/
theorem C1_batches_sequential_early_exit :
    (∀ (probe : String → Option (JSFile × Cls)) (links : List String) (b : List String),
      b ∈ (probeLinksInBatches probe links).2.1 → 0 < b.length ∧ b.length ≤ 4) ∧
    (∀ (probe : String → Option (JSFile × Cls)) (links : List String),
      ∃ k, (probeLinksInBatches probe links).2.1.flatten =
        ((jsSetDedup links).filter isRelevantLink).take k) ∧
    (∀ (probe : String → Option (JSFile × Cls)) (total : Nat) (rem : List String)
      (st : SlotState) (processed : Nat),
      st.admin.isSome = true → st.tech.isSome = true →
      runBatches probe total rem st processed = (st, [], [])) ∧
    (∀ (probe : String → Option (JSFile × Cls)) (links : List String) (ev : Nat × Nat),
      ev ∈ (probeLinksInBatches probe links).2.2 → ev.1 ≤ ev.2) ∧
    probeLinksInBatches (probeAndDownloadLink scenarioEnv 0) tenLinks =
      (⟨some ⟨"PCAP_2024.pdf", 3000, "application/pdf"⟩,
        some ⟨"Memoria_Tecnica.pdf", 3000, "application/pdf"⟩⟩,
       [["https://example.com/d1", "https://example.com/d2", "https://example.com/d3",
         "https://example.com/d4"],
        ["https://example.com/d5", "https://example.com/d6", "https://example.com/d7",
         "https://example.com/d8"]],
       [(4, 10), (8, 10)]) ∧
    (probeLinksInBatches (probeAndDownloadLink scenarioEnv 0) tenLinks).2.1.flatten.length
      = 8 := by
  refine ⟨fun probe links b hb => ?_, fun probe links => ?_, runBatches_of_full,
    fun probe links ev hev => ?_, by decide, by decide⟩
  · exact runBatches_batches_bounded probe _ _ _ _ b hb
  · exact runBatches_flatten_initial probe _ _ _ _
  · exact runBatches_progress_bounded probe _ _ _ _ ev hev

/-- C1 witness: the group-size, early-exit and progress-bound facts at a
concrete run. -/
theorem C1_batches_sequential_early_exit_witness :
    (["https://example.com/d1", "https://example.com/d2", "https://example.com/d3",
      "https://example.com/d4"].length ≤ 4) ∧
    runBatches (fun _ => none) 3 ["http://a", "http://b"]
      ⟨some ⟨"a.pdf", 1, "t"⟩, some ⟨"b.pdf", 2, "t"⟩⟩ 0 =
      (⟨some ⟨"a.pdf", 1, "t"⟩, some ⟨"b.pdf", 2, "t"⟩⟩, [], []) ∧
    ((4, 10) : Nat × Nat).1 ≤ ((4, 10) : Nat × Nat).2 :=
  ⟨(C1_batches_sequential_early_exit.1 (probeAndDownloadLink scenarioEnv 0) tenLinks _
      (by decide)).2,
   C1_batches_sequential_early_exit.2.2.1 _ _ _ _ _ rfl rfl,
   C1_batches_sequential_early_exit.2.2.2.1 (probeAndDownloadLink scenarioEnv 0) tenLinks _
      (by decide)⟩

theorem jsEndsWith_append (s t : String) : jsEndsWith (s ++ t) t = true := by
  simp [jsEndsWith, List.isSuffixOf_iff_suffix, String.data_append]

theorem jsStartsWith_ne_empty (url : String) (h : jsStartsWith url "http" = true) :
    url ≠ "" := by
  intro e
  subst e
  simp [jsStartsWith, List.isPrefixOf] at h

/-- C4: a successful 3000-byte `application/pdf` response without
Content-Disposition materialises as a `File` of byte length 3000 whose
synthesised name ends in `.pdf`, for any body text and either proxy slot;
a successful 500-byte `text/html` response whose body contains `<html` is a
failed attempt (`tryDownload` yields null), and a run in which both proxy
attempts return such a response yields null overall. -/
theorem C4_download_payload_validation :
    (∀ (url defaultPrefix body : String) (now : Nat) (attempt2 : Option RespM),
      jsStartsWith url "http" = true →
      downloadFileFromUrl url defaultPrefix now
          (some ⟨true, ⟨"application/pdf", 3000, body⟩, none⟩) attempt2 =
        some ⟨defaultPrefix ++ "_" ++ Nat.repr now ++ ".pdf", 3000, "application/pdf"⟩) ∧
    (∀ (defaultPrefix : String) (now : Nat),
      jsEndsWith (defaultPrefix ++ "_" ++ Nat.repr now ++ ".pdf") ".pdf" = true) ∧
    (∀ body : String, jsIncludes body "<html" = true →
      tryDownload (some ⟨true, ⟨"text/html", 500, body⟩, none⟩) = none) ∧
    (∀ (url defaultPrefix body body2 : String) (now : Nat)
      (d1 d2 : Option String),
      jsIncludes body "<html" = true → jsIncludes body2 "<html" = true →
      downloadFileFromUrl url defaultPrefix now
          (some ⟨true, ⟨"text/html", 500, body⟩, d1⟩)
          (some ⟨true, ⟨"text/html", 500, body2⟩, d2⟩) = none) := by
  refine ⟨fun url p body now att2 h => ?_, fun p now => jsEndsWith_append _ _,
    fun body h => ?_, fun url p body body2 now d1 d2 h1 h2 => ?_⟩
  · have hne : url ≠ "" := jsStartsWith_ne_empty url h
    unfold downloadFileFromUrl
    rw [if_neg (by simp [h, hne])]
    rfl
  · simp [tryDownload, h]
  · have t1 : tryDownload (some ⟨true, ⟨"text/html", 500, body⟩, d1⟩) = none := by
      simp [tryDownload, h1]
    have t2 : tryDownload (some ⟨true, ⟨"text/html", 500, body2⟩, d2⟩) = none := by
      simp [tryDownload, h2]
    simp [downloadFileFromUrl, t1, t2]

/-- C4 witness: the validated-download facts at a concrete URL and a concrete
interstitial body. -/
theorem C4_download_payload_validation_witness :
    downloadFileFromUrl "https://example.com/doc" "doc" 7
        (some ⟨true, ⟨"application/pdf", 3000, "pdfbytes"⟩, none⟩) none =
      some ⟨"doc" ++ "_" ++ Nat.repr 7 ++ ".pdf", 3000, "application/pdf"⟩ ∧
    tryDownload (some ⟨true, ⟨"text/html", 500, "<html><body>Not here</body>"⟩, none⟩) =
      none ∧
    downloadFileFromUrl "https://example.com/doc" "doc" 7
        (some ⟨true, ⟨"text/html", 500, "<html>a"⟩, none⟩)
        (some ⟨true, ⟨"text/html", 500, "<html>b"⟩, some "x"⟩) = none :=
  ⟨C4_download_payload_validation.1 _ _ _ _ _ (by decide),
   C4_download_payload_validation.2.2.1 _ (by decide),
   C4_download_payload_validation.2.2.2 _ _ _ _ _ _ _ (by decide) (by decide)⟩

/-- C7 counterexample: `httpfoo://evil.example` is not an HTTP(S) URL, yet the
guard (a startsWith-"http" test) lets it through: with a healthy PDF response
on the first proxy attempt the function returns a file instead of null. -/
theorem C7_counterexample_non_http_scheme_not_rejected :
    downloadFileFromUrl "httpfoo://evil.example" "doc" 7
        (some ⟨true, ⟨"application/pdf", 3000, "x"⟩, none⟩) none =
      some ⟨"doc_7.pdf", 3000, "application/pdf"⟩ := by decide

/-- C7 (amended): the downloader never throws past its boundary — for every
URL that is empty or does not start with `http` it returns null immediately,
independent of any fetch outcome, and whenever both proxy attempts fail it
returns null. -/
theorem C7_download_never_throws :
    (∀ (defaultPrefix : String) (now : Nat) (a1 a2 : Option RespM),
      downloadFileFromUrl "" defaultPrefix now a1 a2 = none) ∧
    (∀ (url defaultPrefix : String) (now : Nat) (a1 a2 : Option RespM),
      jsStartsWith url "http" = false →
      downloadFileFromUrl url defaultPrefix now a1 a2 = none) ∧
    (∀ (url defaultPrefix : String) (now : Nat) (a1 a2 : Option RespM),
      tryDownload a1 = none → tryDownload a2 = none →
      downloadFileFromUrl url defaultPrefix now a1 a2 = none) := by
  refine ⟨fun p now a1 a2 => rfl, fun url p now a1 a2 h => ?_,
    fun url p now a1 a2 h1 h2 => ?_⟩
  · simp [downloadFileFromUrl, h]
  · simp [downloadFileFromUrl, h1, h2]

/-- C7 witness: null for a non-http URL and for a run whose two attempts both
fail. -/
theorem C7_download_never_throws_witness :
    downloadFileFromUrl "ftp://example.com/a.pdf" "doc" 0
        (some ⟨true, ⟨"application/pdf", 3000, "x"⟩, none⟩) none = none ∧
    downloadFileFromUrl "https://example.com/a.pdf" "doc" 0 none none = none :=
  ⟨C7_download_never_throws.2.1 _ _ _ _ _ (by decide),
   C7_download_never_throws.2.2 _ _ _ _ _ rfl rfl⟩

theorem scanAnchor_adminUrl (urlJoin : String → Option String) (st : ScrapeState)
    (a : Anchor) :
    (scanAnchor urlJoin st a).adminUrl =
      if st.adminUrl = none ∧ anchorAdminMatch a = true then some (anchorFullUrl urlJoin a)
      else st.adminUrl := by
  by_cases hs : anchorSkipped a = true
  · simp [scanAnchor, hs, anchorAdminMatch]
  · simp only [anchorSkipped] at hs
    simp [scanAnchor, anchorSkipped, hs, anchorAdminMatch, anchorFullUrl]
    split_ifs <;> simp_all

theorem scanAnchor_techUrl (urlJoin : String → Option String) (st : ScrapeState)
    (a : Anchor) :
    (scanAnchor urlJoin st a).techUrl =
      if st.techUrl = none ∧ anchorTechMatch a = true then some (anchorFullUrl urlJoin a)
      else st.techUrl := by
  by_cases hs : anchorSkipped a = true
  · simp [scanAnchor, hs, anchorTechMatch]
  · simp only [anchorSkipped] at hs
    simp [scanAnchor, anchorSkipped, hs, anchorTechMatch, anchorFullUrl]
    split_ifs <;> simp_all

theorem scanAnchors_adminUrl_some (urlJoin : String → Option String) :
    ∀ (anchors : List Anchor) (st : ScrapeState) (u : String), st.adminUrl = some u →
      (scanAnchors urlJoin anchors st).adminUrl = some u := by
  intro anchors
  induction anchors with
  | nil => intro st u h; exact h
  | cons a l ih =>
    intro st u h
    have hstep : (scanAnchor urlJoin st a).adminUrl = some u := by
      rw [scanAnchor_adminUrl]
      simp [h]
    exact ih _ _ hstep

theorem scanAnchors_techUrl_some (urlJoin : String → Option String) :
    ∀ (anchors : List Anchor) (st : ScrapeState) (u : String), st.techUrl = some u →
      (scanAnchors urlJoin anchors st).techUrl = some u := by
  intro anchors
  induction anchors with
  | nil => intro st u h; exact h
  | cons a l ih =>
    intro st u h
    have hstep : (scanAnchor urlJoin st a).techUrl = some u := by
      rw [scanAnchor_techUrl]
      simp [h]
    exact ih _ _ hstep

theorem scanAnchors_adminUrl_first_match (urlJoin : String → Option String) :
    ∀ (anchors : List Anchor) (st : ScrapeState), st.adminUrl = none →
      (scanAnchors urlJoin anchors st).adminUrl =
        ((anchors.filter (fun a => anchorAdminMatch a)).head?).map (anchorFullUrl urlJoin) := by
  intro anchors
  induction anchors with
  | nil => intro st h; exact h
  | cons a l ih =>
    intro st h
    by_cases hm : anchorAdminMatch a = true
    · have hstep : (scanAnchor urlJoin st a).adminUrl = some (anchorFullUrl urlJoin a) := by
        rw [scanAnchor_adminUrl]
        simp [h, hm]
      have := scanAnchors_adminUrl_some urlJoin l _ _ hstep
      simp only [scanAnchors, List.foldl_cons] at this ⊢
      rw [this, List.filter_cons_of_pos hm]
      rfl
    · have hstep : (scanAnchor urlJoin st a).adminUrl = none := by
        rw [scanAnchor_adminUrl]
        simp [h, hm]
      have hmf : anchorAdminMatch a = false := by simpa using hm
      simp only [scanAnchors, List.foldl_cons]
      rw [show (List.foldl (scanAnchor urlJoin) (scanAnchor urlJoin st a) l) =
            scanAnchors urlJoin l (scanAnchor urlJoin st a) from rfl,
        ih _ hstep, List.filter_cons_of_neg (by simp [hmf])]

theorem scanAnchors_techUrl_first_match (urlJoin : String → Option String) :
    ∀ (anchors : List Anchor) (st : ScrapeState), st.techUrl = none →
      (scanAnchors urlJoin anchors st).techUrl =
        ((anchors.filter (fun a => anchorTechMatch a)).head?).map (anchorFullUrl urlJoin) := by
  intro anchors
  induction anchors with
  | nil => intro st h; exact h
  | cons a l ih =>
    intro st h
    by_cases hm : anchorTechMatch a = true
    · have hstep : (scanAnchor urlJoin st a).techUrl = some (anchorFullUrl urlJoin a) := by
        rw [scanAnchor_techUrl]
        simp [h, hm]
      have := scanAnchors_techUrl_some urlJoin l _ _ hstep
      simp only [scanAnchors, List.foldl_cons] at this ⊢
      rw [this, List.filter_cons_of_pos hm]
      rfl
    · have hstep : (scanAnchor urlJoin st a).techUrl = none := by
        rw [scanAnchor_techUrl]
        simp [h, hm]
      have hmf : anchorTechMatch a = false := by simpa using hm
      simp only [scanAnchors, List.foldl_cons]
      rw [show (List.foldl (scanAnchor urlJoin) (scanAnchor urlJoin st a) l) =
            scanAnchors urlJoin l (scanAnchor urlJoin st a) from rfl,
        ih _ hstep, List.filter_cons_of_neg (by simp [hmf])]

theorem backfill_admin_some (st : ScrapeState) (u : String) (h : st.adminUrl = some u) :
    (backfill st).1 = some u := by
  obtain ⟨a, t, pdfs⟩ := st
  simp only at h
  subst h
  simp only [backfill]
  split <;> rfl

theorem backfill_tech_some (st : ScrapeState) (u : String) (h : st.techUrl = some u) :
    (backfill st).2 = some u := by
  obtain ⟨a, t, pdfs⟩ := st
  simp only at h
  subst h
  simp only [backfill]
  split <;> rfl

theorem backfill_admin_none (st : ScrapeState) (p : String) (h : st.adminUrl = none)
    (hp : st.potentialPdfs.get? 0 = some p) (hne : p ≠ "") : (backfill st).1 = some p := by
  obtain ⟨a, t, pdfs⟩ := st
  simp only at h hp
  subst h
  cases pdfs with
  | nil => simp at hp
  | cons x xs =>
    simp only [List.get?] at hp
    obtain rfl : x = p := by injection hp
    simp [backfill, hne]

theorem backfill_tech_none (st : ScrapeState) (q : String) (h : st.techUrl = none)
    (hq : st.potentialPdfs.get? 1 = some q) (hne : q ≠ "") : (backfill st).2 = some q := by
  obtain ⟨a, t, pdfs⟩ := st
  simp only at h hq
  subst h
  cases pdfs with
  | nil => simp at hq
  | cons x xs =>
    cases xs with
    | nil => simp at hq
    | cons y ys =>
      simp only [List.get?] at hq
      obtain rfl : y = q := by injection hq
      simp [backfill, hne]

/-- C5: the scan of the scraper assigns each slot the resolved URL of the first
anchor in document order matching the keyword set of that slot (first match wins,
never overwritten), `backfill` leaves assigned slots untouched and fills an
empty admin slot from the first generic `.pdf`/`.zip` candidate and an empty
tech slot from the second; on a page with two generic `.pdf` links and no
keyword matches the result is (first link, second link). -/
theorem C5_scrape_first_match_and_positional_backfill :
    (∀ (urlJoin : String → Option String) (anchors : List Anchor),
      (scanAnchors urlJoin anchors ⟨none, none, []⟩).adminUrl =
        ((anchors.filter (fun a => anchorAdminMatch a)).head?).map (anchorFullUrl urlJoin)) ∧
    (∀ (urlJoin : String → Option String) (anchors : List Anchor),
      (scanAnchors urlJoin anchors ⟨none, none, []⟩).techUrl =
        ((anchors.filter (fun a => anchorTechMatch a)).head?).map (anchorFullUrl urlJoin)) ∧
    (∀ (st : ScrapeState) (u : String), st.adminUrl = some u → (backfill st).1 = some u) ∧
    (∀ (st : ScrapeState) (u : String), st.techUrl = some u → (backfill st).2 = some u) ∧
    (∀ (st : ScrapeState) (p : String), st.adminUrl = none →
      st.potentialPdfs.get? 0 = some p → p ≠ "" → (backfill st).1 = some p) ∧
    (∀ (st : ScrapeState) (q : String), st.techUrl = none →
      st.potentialPdfs.get? 1 = some q → q ≠ "" → (backfill st).2 = some q) ∧
    scrapeDocsFromWeb (fun _ => none)
      [⟨some "https://example.com/a.pdf", some "first", none, none, none, none⟩,
       ⟨some "https://example.com/b.pdf", some "second", none, none, none, none⟩] =
      (some "https://example.com/a.pdf", some "https://example.com/b.pdf") := by
  exact ⟨fun uj anchors => scanAnchors_adminUrl_first_match uj anchors _ rfl,
    fun uj anchors => scanAnchors_techUrl_first_match uj anchors _ rfl,
    backfill_admin_some, backfill_tech_some, backfill_admin_none, backfill_tech_none,
    by decide⟩

/-- C5 witness: the backfill facts at concrete scrape states. -/
theorem C5_scrape_first_match_and_positional_backfill_witness :
    (backfill ⟨some "u", none, ["p"]⟩).1 = some "u" ∧
    (backfill ⟨none, some "v", ["p", "q"]⟩).2 = some "v" ∧
    (backfill ⟨none, none, ["p", "q"]⟩).1 = some "p" ∧
    (backfill ⟨none, none, ["p", "q"]⟩).2 = some "q" :=
  ⟨C5_scrape_first_match_and_positional_backfill.2.2.1 _ _ rfl,
   C5_scrape_first_match_and_positional_backfill.2.2.2.1 _ _ rfl,
   C5_scrape_first_match_and_positional_backfill.2.2.2.2.1 _ _ rfl rfl (by decide),
   C5_scrape_first_match_and_positional_backfill.2.2.2.2.2.1 _ _ rfl rfl (by decide)⟩

end Pliegos
